import Mathlib

/-!
Shallow embedding of the core of `src/src/network/networkctl.c`:
the netlink link dump decoder (`decode_link`, `acquire_link_info`),
the gateway resolver (`ieee_oui`, `get_gateway_description`, `dump_gateways`),
the LLDP neighbor record store decoder (`open_lldp_neighbors`,
`next_lldp_neighbor`, `dump_lldp_neighbors`, `link_lldp_status`),
and the address-label enumerator (`dump_address_labels`).

Netlink messages are modelled as records of attribute-read outcomes
(`Option` = read succeeds / fails, mirroring `r >= 0` / `r < 0`); the
in-kernel transport, already drained into an ordered message list, is out
of scope (spec §1 non-goals).  Uninitialized C memory (realloc'd `LinkInfo`
slots, the uninitialized `label` stack variable) is modelled by threading
an explicit arbitrary initial value.
-/

/-! ## errno and protocol constants (values from the C headers) -/

def ENOENT : Int := 2
def EINVAL : Int := 22
def ENODATA : Int := 61
def EBADMSG : Int := 74

def RTM_NEWLINK : Nat := 16
def RTM_NEWNEIGH : Nat := 28
def AF_INET : Nat := 2
def AF_INET6 : Nat := 10

instance {ε α : Type} [DecidableEq ε] [DecidableEq α] : DecidableEq (Except ε α)
  | .error e, .error e' =>
    if h : e = e' then .isTrue (by rw [h]) else .isFalse (by simp [h])
  | .error _, .ok _ => .isFalse (by simp)
  | .ok _, .error _ => .isFalse (by simp)
  | .ok a, .ok a' =>
    if h : a = a' then .isTrue (by rw [h]) else .isFalse (by simp [h])

/-! ## fnmatch / strv_fnmatch

`strv_fnmatch` (strv.h) and libc `fnmatch` are not part of this source
tree. -/

/-- Modelled from the spec: libc `fnmatch` with flags = 0 (glob matching),
as used through `strv_fnmatch` from `strv.h`, neither of which is in this
source tree.  Supports the wildcards `*` (any sequence) and `?` (any one
character); every other pattern character matches itself. -/
def fnmatchL (p s : List Char) : Bool :=
  match p, s with
  | [], s => s.isEmpty
  | '*' :: ps, [] => fnmatchL ps []
  | '*' :: ps, c :: ss => fnmatchL ps (c :: ss) || fnmatchL ('*' :: ps) ss
  | '?' :: _, [] => false
  | '?' :: ps, _ :: ss => fnmatchL ps ss
  | _ :: _, [] => false
  | c :: ps, d :: ss => c == d && fnmatchL ps ss
termination_by (p.length, s.length)

/-- Modelled from the spec: `fnmatch(pattern, s, 0) == 0` on strings. -/
def fnmatch (p s : String) : Bool := fnmatchL p.data s.data

/-- Modelled from the spec: `strv_fnmatch(patterns, s, 0)` from `strv.h`
(not in this source tree): true iff some pattern in the list fnmatch-matches
`s`; in particular false for the empty pattern list. -/
def strv_fnmatch (patterns : List String) (s : String) : Bool :=
  patterns.any (fun p => fnmatch p s)

/-! ## Link dump decoding (`decode_link`, `acquire_link_info`) -/

/-- One netlink dump-response message for the link table, as the set of
attribute-read outcomes `decode_link` can ask of it.  `none` models a
reader returning `r < 0`. -/
structure LinkMsg where
  msgType : Option Nat
  ifindex : Option Int
  ifname : Option String
  iftype : Option Nat
  addr : Option (List Nat)
  mtu : Option Nat
  minMtu : Option Nat
  maxMtu : Option Nat
  rxQueues : Option Nat
  txQueues : Option Nat
deriving DecidableEq, Repr

/-- The C `LinkInfo` struct (networkctl.c lines 100-115). -/
structure LinkInfo where
  name : String
  ifindex : Int
  iftype : Nat
  mac_address : List Nat
  mtu : Nat
  min_mtu : Nat
  max_mtu : Nat
  tx_queues : Nat
  rx_queues : Nat
  has_mac_address : Bool
  has_mtu : Bool
  has_tx_queues : Bool
  has_rx_queues : Bool
deriving DecidableEq, Repr

/-- An all-zero MAC, `ETHER_ADDR_NULL`. -/
def ETHER_ADDR_NULL : List Nat := [0, 0, 0, 0, 0, 0]

/-- `strscpy(info->name, sizeof info->name, name)` with a buffer of
`IFNAMSIZ+1 = 17` bytes: keeps at most the first 16 characters. -/
def strscpy16 (s : String) : String := ⟨s.data.take 16⟩

/-- Outcome trichotomy of `decode_link`: `r < 0` / `r == 0` / `r == 1`. -/
inductive DecodeResult (α : Type) where
  | err
  | skip
  | ok (val : α)
deriving DecidableEq, Repr

/-- The field writes of `decode_link` (lines 157-180) once the mandatory
reads succeeded.  The C mutates the `LinkInfo` slot field by field in
statement order; this record gathers the same per-field dataflow: fields
the code does not write keep their prior slot value from `info0`, and
`IFLA_MIN_MTU`/`IFLA_MAX_MTU` are read, best-effort, only when the MTU
was readable and positive. -/
def link_info_of (m : LinkMsg) (ifindex : Int) (name : String) (iftype : Nat)
    (info0 : LinkInfo) : LinkInfo :=
  { name := strscpy16 name
    ifindex := ifindex
    iftype := iftype
    mac_address := m.addr.getD info0.mac_address
    has_mac_address :=
      match m.addr with
      | some a => decide (a ≠ ETHER_ADDR_NULL)
      | none => false
    mtu := m.mtu.getD info0.mtu
    has_mtu :=
      match m.mtu with
      | some v => decide (0 < v)
      | none => false
    min_mtu :=
      if (match m.mtu with | some v => decide (0 < v) | none => false)
      then m.minMtu.getD info0.min_mtu else info0.min_mtu
    max_mtu :=
      if (match m.mtu with | some v => decide (0 < v) | none => false)
      then m.maxMtu.getD info0.max_mtu else info0.max_mtu
    rx_queues := m.rxQueues.getD info0.rx_queues
    has_rx_queues :=
      match m.rxQueues with
      | some v => decide (0 < v)
      | none => false
    tx_queues := m.txQueues.getD info0.tx_queues
    has_tx_queues :=
      match m.txQueues with
      | some v => decide (0 < v)
      | none => false }

/-- `decode_link` (networkctl.c lines 121-182).  `info0` is the prior
content of the `LinkInfo` slot the C code writes into (realloc'd memory,
so arbitrary). -/
def decode_link (m : LinkMsg) (patterns : Option (List String)) (info0 : LinkInfo) :
    DecodeResult LinkInfo :=
  match m.msgType with
  | none => .err
  | some type =>
  if type ≠ RTM_NEWLINK then .skip else
  match m.ifindex with
  | none => .err
  | some ifindex =>
  match m.ifname with
  | none => .err
  | some name =>
  if (match patterns with
      | some pats => !(strv_fnmatch pats (toString ifindex)) && !(strv_fnmatch pats name)
      | none => false) then .skip else
  match m.iftype with
  | none => .err
  | some iftype =>
  .ok (link_info_of m ifindex name iftype info0)

/-- The collection loop of `acquire_link_info` (lines 206-215): decode each
response message in delivery order, a decode error aborts the whole call
(`none`), `r == 0` messages are dropped, `r == 1` messages are appended. -/
def decode_loop (g : LinkInfo) (patterns : Option (List String)) :
    List LinkMsg → Option (List LinkInfo)
  | [] => some []
  | m :: ms =>
    match decode_link m patterns g with
    | .err => none
    | .skip => decode_loop g patterns ms
    | .ok info => (decode_loop g patterns ms).map (fun l => info :: l)

/-- `link_info_compare` (line 117-119): order by `ifindex`. -/
def link_info_le (a b : LinkInfo) : Prop := a.ifindex ≤ b.ifindex

instance : DecidableRel link_info_le := fun a b => Int.decLe a.ifindex b.ifindex

instance : IsTotal LinkInfo link_info_le := ⟨fun a b => Int.le_total a.ifindex b.ifindex⟩

instance : IsTrans LinkInfo link_info_le := ⟨fun _ _ _ h h' => le_trans h h'⟩

/-- `acquire_link_info` (lines 184-222): decode all messages, then
`typesafe_qsort` with `link_info_compare` — modelled as a sorted
permutation (insertion sort).  The C call also returns the count, which is
the length of the returned list.  `g` is the (arbitrary) prior content of
the realloc'd result slots. -/
def acquire_link_info (g : LinkInfo) (patterns : Option (List String))
    (msgs : List LinkMsg) : Option (List LinkInfo) :=
  (decode_loop g patterns msgs).map (List.insertionSort link_info_le)

/-! ## Gateway resolver (`ieee_oui`, `get_gateway_description`, `dump_gateways`) -/

/-- `ieee_oui` (networkctl.c lines 319-351).  The hwdb collaborator is
modelled as an optional lookup function keyed on the 6-byte MAC (the C
code keys on the modalias string `OUI:XXYYXXYYXXYY`, an injective
rendering of the MAC); a lookup miss (`sd_hwdb_get` < 0) is modelled as
`-ENOENT`. -/
def ieee_oui (hwdb : Option (List Nat → Option String)) (mac : List Nat) :
    Except Int String :=
  match hwdb with
  | none => .error (-EINVAL)
  | some db =>
    if mac.take 3 = [0, 0, 0] then .error (-EINVAL)
    else
      match db mac with
      | none => .error (-ENOENT)
      | some description => .ok description

/-- One netlink dump-response message for the neighbor table, as the
attribute-read outcomes `get_gateway_description` asks of it.  `dst` holds
the raw `NDA_DST` attribute bytes when the attribute is readable. -/
structure NeighMsg where
  errno : Int
  msgType : Option Nat
  family : Option Nat
  ifi : Option Int
  dst : Option (List Nat)
  lladdr : Option (List Nat)
deriving DecidableEq, Repr

/-- The family-dispatched `NDA_DST` read (lines 425-440):
`sd_netlink_message_read_in_addr` succeeds only on a 4-byte attribute,
`sd_netlink_message_read_in6_addr` only on a 16-byte one; any other
family hits the `default:` arm. -/
def read_dst (fam : Nat) (m : NeighMsg) : Option (List Nat) :=
  if fam = AF_INET then
    m.dst.bind (fun b => if b.length = 4 then some b else none)
  else if fam = AF_INET6 then
    m.dst.bind (fun b => if b.length = 16 then some b else none)
  else none

/-- One iteration of the scan loop of `get_gateway_description`
(lines 382-454): `some d` models `return 0` with description `d`,
`none` models every `continue`. -/
def neigh_step (hwdb : Option (List Nat → Option String)) (ifindex : Int)
    (family : Nat) (gateway : List Nat) (m : NeighMsg) : Option String :=
  if m.errno < 0 then none else
  match m.msgType with
  | none => none
  | some type =>
  if type ≠ RTM_NEWNEIGH then none else
  match m.family with
  | none => none
  | some fam =>
  if fam ≠ family then none else
  match m.ifi with
  | none => none
  | some ifi =>
  if ifindex > 0 ∧ ifi ≠ ifindex then none else
  match read_dst fam m with
  | none => none
  | some gw =>
  if gw ≠ gateway then none else
  match m.lladdr with
  | none => none
  | some mac =>
  match ieee_oui hwdb mac with
  | .error _ => none
  | .ok d => some d

/-- `get_gateway_description` (lines 353-457): scan the drained neighbor
dump in delivery order; the first iteration that reaches `return 0` wins;
a fully scanned stream yields `-ENODATA`. -/
def get_gateway_description (hwdb : Option (List Nat → Option String))
    (ifindex : Int) (family : Nat) (gateway : List Nat) :
    List NeighMsg → Except Int String
  | [] => .error (-ENODATA)
  | m :: ms =>
    match neigh_step hwdb ifindex family gateway m with
    | some d => .ok d
    | none => get_gateway_description hwdb ifindex family gateway ms

/-- The family + destination-address part of the scan's match condition
(lines 405-443), used to speak about "an entry whose family and address
match" independently of the hardware-address and vendor steps. -/
def neigh_fam_addr_match (family : Nat) (gateway : List Nat) (m : NeighMsg) : Bool :=
  (m.family == some family) && (read_dst family m == some gateway)

/-- The per-gateway cell of `dump_gateways` (lines 489-509, `ifindex > 0`
branch): on resolver success the cell is `gateway (description)`
(`strjoin(gateway, " (", description, ")")`); on any resolver failure the
description stays absent and the cell is the bare gateway string
(`with_description ?: gateway`). -/
def dump_gateway_cell (hwdb : Option (List Nat → Option String))
    (ifindex : Int) (family : Nat) (gateway : List Nat)
    (msgs : List NeighMsg) (gwstr : String) : String :=
  match get_gateway_description hwdb ifindex family gateway msgs with
  | .ok d => gwstr ++ " (" ++ d ++ ")"
  | .error _ => gwstr

/-! ## LLDP neighbor record store (`open_lldp_neighbors`,
`next_lldp_neighbor`, `dump_lldp_neighbors`, `link_lldp_status`) -/

/-- Little-endian value of a byte list (`le64toh` of the prefix). -/
def le64 (bs : List Nat) : Nat := bs.foldr (fun b acc => b + 256 * acc) 0

/-- `open_lldp_neighbors` (lines 655-668).  The store directory
`/run/systemd/netif/lldp/<ifindex>` is modelled as a partial map from
interface index to file bytes; a missing file makes `fopen` fail with
`ENOENT`. -/
def open_lldp_neighbors (fs : Int → Option (List Nat)) (ifindex : Int) :
    Except Int (List Nat) :=
  match fs ifindex with
  | none => .error (-ENOENT)
  | some bytes => .ok bytes

/-- `next_lldp_neighbor` (lines 670-701) on a byte stream.  `fromRaw`
models `sd_lldp_neighbor_from_raw` (the external frame decoder).
`.ok none` is the clean end-of-stream (`l == 0 && feof`), `.ok (some
(n, rest))` a decoded record plus the unread remainder of the stream. -/
def next_lldp_neighbor {α : Type} (fromRaw : List Nat → Except Int α)
    (s : List Nat) : Except Int (Option (α × List Nat)) :=
  if s.length = 0 then .ok none
  else if s.length < 8 then .error (-EBADMSG)
  else if le64 (s.take 8) ≥ 4096 then .error (-EBADMSG)
  else if (s.drop 8).length < le64 (s.take 8) then .error (-EBADMSG)
  else
    match fromRaw ((s.drop 8).take (le64 (s.take 8))) with
    | .error e => .error e
    | .ok n => .ok (some (n, (s.drop 8).drop (le64 (s.take 8))))

/-- The read loop of `dump_lldp_neighbors` (lines 717-752), record
collection only: a decode error aborts the whole call, clean end of
stream returns the records read so far. -/
def lldp_read_all {α : Type} (fromRaw : List Nat → Except Int α)
    (s : List Nat) : Except Int (List α) :=
  match h : next_lldp_neighbor fromRaw s with
  | .error e => .error e
  | .ok none => .ok []
  | .ok (some (n, rest)) =>
    match lldp_read_all fromRaw rest with
    | .error e => .error e
    | .ok l => .ok (n :: l)
termination_by s.length
decreasing_by
  unfold next_lldp_neighbor at h
  split_ifs at h with h0 h1 h2 h3
  · simp at h
  · split at h
    · simp at h
    · simp only [Except.ok.injEq, Option.some.injEq, Prod.mk.injEq] at h
      obtain ⟨-, rfl⟩ := h
      simp only [List.length_drop]
      omega

/-- `dump_lldp_neighbors` (lines 703-755): a missing store file
(`-ENOENT`) is "no data" — zero records and success; any other open
failure or any `next_lldp_neighbor` failure is returned; otherwise the
number of records read (the C `c`). -/
def dump_lldp_neighbors {α : Type} (fromRaw : List Nat → Except Int α)
    (fs : Int → Option (List Nat)) (ifindex : Int) : Except Int Nat :=
  match open_lldp_neighbors fs ifindex with
  | .error e => if e = -ENOENT then .ok 0 else .error e
  | .ok bytes =>
    match lldp_read_all fromRaw bytes with
    | .error e => .error e
    | .ok l => .ok l.length

/-- The per-file read loop of `link_lldp_status` (lines 1245-1302): a read
error logs a warning and merely breaks out of the loop, keeping the rows
already produced for that file. -/
def lldp_rows {α : Type} (fromRaw : List Nat → Except Int α)
    (s : List Nat) : List α :=
  match h : next_lldp_neighbor fromRaw s with
  | .error _ => []
  | .ok none => []
  | .ok (some (n, rest)) => n :: lldp_rows fromRaw rest
termination_by s.length
decreasing_by
  unfold next_lldp_neighbor at h
  split_ifs at h with h0 h1 h2 h3
  · simp at h
  · split at h
    · simp at h
    · simp only [Except.ok.injEq, Option.some.injEq, Prod.mk.injEq] at h
      obtain ⟨-, rfl⟩ := h
      simp only [List.length_drop]
      omega

/-- One interface's contribution in `link_lldp_status` (lines 1234-1243):
a missing store file (or any open failure) is skipped with `continue`,
otherwise the rows read from the file up to clean end or first error. -/
def link_lldp_one {α : Type} (fromRaw : List Nat → Except Int α)
    (fs : Int → Option (List Nat)) (ifindex : Int) : List α :=
  match open_lldp_neighbors fs ifindex with
  | .error _ => []
  | .ok bytes => lldp_rows fromRaw bytes

/-- The outer interface loop of `link_lldp_status` (lines 1234-1303),
record collection only: every interface's store file is visited in order
and its rows appended. -/
def link_lldp_status {α : Type} (fromRaw : List Nat → Except Int α)
    (fs : Int → Option (List Nat)) : List Int → List α
  | [] => []
  | i :: is => link_lldp_one fromRaw fs i ++ link_lldp_status fromRaw fs is

/-! ## Address-label enumerator (`dump_address_labels`) -/

/-- Outcome of `sd_netlink_message_read_u32(m, IFAL_LABEL, &label)`:
success, attribute absent (`-ENODATA`), or some other read error. -/
inductive ReadU32 where
  | ok (v : Nat)
  | nodata
  | err
deriving DecidableEq, Repr

/-- One netlink dump-response message for the address-label table, as the
attribute-read outcomes `dump_address_labels` asks of it. -/
structure AddrLabelMsg where
  errno : Int
  labelRead : ReadU32
  address : Option (List Nat)
  prefixlen : Option Nat
deriving DecidableEq, Repr

/-- What one emitted address-label table row carries (label cell and
prefix/prefixlen cell). -/
structure AddressLabelRecord where
  label : Nat
  addr : List Nat
  prefixlen : Nat
deriving DecidableEq, Repr

/-- The tail of one loop iteration of `dump_address_labels` (lines
616-636) once the label variable holds `label`: mandatory reads of
`IFAL_ADDRESS` and the prefix length skip the entry on failure
(`in_addr_to_string` on an in6 address is pure formatting and modelled as
always succeeding), then the row is emitted. -/
def addrlabel_emit (label : Nat) (m : AddrLabelMsg) : Option AddressLabelRecord :=
  match m.address with
  | none => none
  | some a =>
    match m.prefixlen with
    | none => none
    | some pl => some ⟨label, a, pl⟩

/-- One loop iteration of `dump_address_labels` (lines 598-637).  The C
`uint32_t label` is declared uninitialized each iteration; `uninit` is
whatever value that stack slot happens to hold.  A label read failing with
`-ENODATA` is tolerated (the variable is left untouched); any other label
read failure skips the entry. -/
def addrlabel_entry (uninit : Nat) (m : AddrLabelMsg) : Option AddressLabelRecord :=
  if m.errno < 0 then none
  else
    match m.labelRead with
    | .err => none
    | .nodata => addrlabel_emit uninit m
    | .ok v => addrlabel_emit v m

/-- The loop of `dump_address_labels` over the drained dump, row
collection only; `uninit i` is the garbage in the label stack slot at
iteration `i` (the variable is declared, uninitialized, inside the
loop body). -/
def dump_address_labels_go (uninit : Nat → Nat) (i : Nat) :
    List AddrLabelMsg → List AddressLabelRecord
  | [] => []
  | m :: ms =>
    match addrlabel_entry (uninit i) m with
    | none => dump_address_labels_go uninit (i + 1) ms
    | some row => row :: dump_address_labels_go uninit (i + 1) ms

/-- `dump_address_labels` (lines 563-640), row collection only. -/
def dump_address_labels (uninit : Nat → Nat) (msgs : List AddrLabelMsg) :
    List AddressLabelRecord :=
  dump_address_labels_go uninit 0 msgs

/-! ## Concrete fixtures used by witnesses, scenarios and counterexamples -/

/-- The retain-condition of `decode_link`'s pattern filter (lines 144-151),
restated on the decoded record: some pattern matches the decimal interface
index or the name. -/
def linkMatch (pats : List String) (i : LinkInfo) : Bool :=
  strv_fnmatch pats (toString i.ifindex) || strv_fnmatch pats i.name

/-- Arbitrary prior content of a realloc'd `LinkInfo` slot. -/
def gDefault : LinkInfo := ⟨"", 0, 0, [], 0, 0, 0, 0, 0, false, false, false, false⟩

/-- `00:11:22:33:44:55`. -/
def macA : List Nat := [0, 17, 34, 51, 68, 85]

/-- A second MAC, with a known vendor in `hwdbEx`. -/
def macB : List Nat := [2, 3, 4, 5, 6, 7]

/-- A hwdb that knows `macB`'s vendor and misses `macA`'s. -/
def hwdbEx : Option (List Nat → Option String) :=
  some (fun mac => if mac = macB then some "VendorB" else none)

/-- `192.0.2.1`. -/
def gw4 : List Nat := [192, 0, 2, 1]

/-- Clean IPv4 neighbor entry for `gw4` on ifindex 3, hardware address
`macA` (vendor unknown in `hwdbEx`). -/
def nmsg0 : NeighMsg := ⟨0, some RTM_NEWNEIGH, some AF_INET, some 3, some gw4, some macA⟩

/-- Same entry but with hardware address `macB` (vendor known). -/
def nmsg1 : NeighMsg := ⟨0, some RTM_NEWNEIGH, some AF_INET, some 3, some gw4, some macB⟩

/-- An IPv6 neighbor entry whose raw `NDA_DST` bytes coincide with the
IPv4 gateway `gw4`. -/
def nmsg6 : NeighMsg := ⟨0, some RTM_NEWNEIGH, some AF_INET6, some 3, some gw4, some macB⟩

/-- A fully-populated link dump message: index 2, name eth0. -/
def linkMsgEx : LinkMsg :=
  ⟨some RTM_NEWLINK, some 2, some "eth0", some 1, some macA,
   some 1500, some 68, some 9000, some 4, some 4⟩

/-- The record `decode_link` produces from `linkMsgEx`. -/
def recEx : LinkInfo := ⟨"eth0", 2, 1, macA, 1500, 68, 9000, 4, 4, true, true, true, true⟩

/-- A link dump message whose `IFLA_ADDRESS` is the all-zero MAC and whose
other optional attributes are absent. -/
def linkMsgZero : LinkMsg :=
  ⟨some RTM_NEWLINK, some 2, some "eth0", some 1, some ETHER_ADDR_NULL,
   none, none, none, none, none⟩

/-- The record `decode_link` produces from `linkMsgZero` over `gDefault`. -/
def recZero : LinkInfo :=
  ⟨"eth0", 2, 1, ETHER_ADDR_NULL, 0, 0, 0, 0, 0, false, false, false, false⟩

/-- A concrete stand-in for `sd_lldp_neighbor_from_raw` that accepts every
frame and returns its bytes. -/
def fromRawId : List Nat → Except Int (List Nat) := fun bs => .ok bs

/-- Store file with length prefix 10 followed by only 8 bytes before EOF. -/
def corruptStore : List Nat := [10, 0, 0, 0, 0, 0, 0, 0, 1, 2, 3, 4, 5, 6, 7, 8]

/-- Well-formed store file holding the single frame `[9, 9]`. -/
def goodStore : List Nat := [2, 0, 0, 0, 0, 0, 0, 0, 9, 9]

/-- Store directory: ifindex 5 has the corrupt file, ifindex 7 the good
one, every other interface has no file. -/
def fsLldp : Int → Option (List Nat) :=
  fun i => if i = 5 then some corruptStore else if i = 7 then some goodStore else none

/-- Link dump message whose type tag is not `RTM_NEWLINK`. -/
def mTypeOther : LinkMsg :=
  ⟨some 20, some 1, some "x", some 1, none, none, none, none, none, none⟩

/-- Link dump message whose ifindex read fails. -/
def mNoIndex : LinkMsg :=
  ⟨some RTM_NEWLINK, none, some "x", some 1, none, none, none, none, none, none⟩

/-- Link dump message whose name read fails. -/
def mNoName : LinkMsg :=
  ⟨some RTM_NEWLINK, some 1, none, some 1, none, none, none, none, none, none⟩

/-- Link dump message whose interface-type read fails. -/
def mNoType : LinkMsg :=
  ⟨some RTM_NEWLINK, some 1, some "x", none, none, none, none, none, none, none⟩

/-- Address-label dump entry whose `IFAL_LABEL` attribute is absent
(read yields `-ENODATA`) but whose prefix and prefix length are fine. -/
def almsg : AddrLabelMsg :=
  ⟨0, .nodata, some [32, 1, 13, 184, 0, 0, 0, 0, 0, 0, 0, 0, 0, 0, 0, 0], some 32⟩

/-! ## Theorems -/

/-- C2: each `next_lldp_neighbor` call reads one 8-byte little-endian
length prefix; end-of-stream with zero bytes read is the clean
no-more-records outcome; a prefix declaring a length of 4096 or more is a
malformed-stream error while 4095 is accepted subject to payload decode
success; a short read of the prefix or of the payload is a
malformed-stream error. -/
theorem next_lldp_neighbor_framing {α : Type} (fromRaw : List Nat → Except Int α) :
    (next_lldp_neighbor fromRaw [] = .ok none) ∧
    (∀ s : List Nat, 0 < s.length → s.length < 8 →
      next_lldp_neighbor fromRaw s = .error (-EBADMSG)) ∧
    (∀ p t : List Nat, p.length = 8 → 4096 ≤ le64 p →
      next_lldp_neighbor fromRaw (p ++ t) = .error (-EBADMSG)) ∧
    (∀ p t : List Nat, p.length = 8 → le64 p < 4096 → t.length < le64 p →
      next_lldp_neighbor fromRaw (p ++ t) = .error (-EBADMSG)) ∧
    (∀ (p payload t : List Nat) (n : α), p.length = 8 → le64 p = 4095 →
      payload.length = 4095 → fromRaw payload = .ok n →
      next_lldp_neighbor fromRaw (p ++ (payload ++ t)) = .ok (some (n, t))) := by
  refine ⟨rfl, ?_, ?_, ?_, ?_⟩
  · intro s h0 h8
    unfold next_lldp_neighbor
    rw [if_neg (by omega), if_pos h8]
  · intro p t hp hu
    unfold next_lldp_neighbor
    rw [if_neg (by simp only [List.length_append, hp]; omega),
        if_neg (by simp only [List.length_append, hp]; omega),
        if_pos (by rw [List.take_left' hp]; omega)]
  · intro p t hp hu ht
    unfold next_lldp_neighbor
    rw [if_neg (by simp only [List.length_append, hp]; omega),
        if_neg (by simp only [List.length_append, hp]; omega),
        if_neg (by rw [List.take_left' hp]; omega),
        if_pos (by rw [List.take_left' hp, List.drop_left' hp]; omega)]
  · intro p payload t n hp hu hpl hraw
    unfold next_lldp_neighbor
    rw [if_neg (by simp only [List.length_append, hp]; omega),
        if_neg (by simp only [List.length_append, hp]; omega),
        if_neg (by rw [List.take_left' hp, hu]; omega),
        if_neg (by rw [List.take_left' hp, List.drop_left' hp, hu];
                   simp only [List.length_append, hpl]; omega),
        List.take_left' hp, List.drop_left' hp, hu, ← hpl,
        List.take_left, List.drop_left, hraw]

/-- Witness for C2: the framing contract at concrete streams — a 3-byte
stream, a prefix declaring 4096 over an empty tail, a prefix declaring 2
over a 1-byte tail, and a prefix declaring 4095 over a 4095-byte frame. -/
theorem next_lldp_neighbor_framing_witness :
    (0 < ([1, 2, 3] : List Nat).length ∧ ([1, 2, 3] : List Nat).length < 8 ∧
      next_lldp_neighbor fromRawId [1, 2, 3] = .error (-EBADMSG)) ∧
    (([0, 16, 0, 0, 0, 0, 0, 0] : List Nat).length = 8 ∧
      4096 ≤ le64 [0, 16, 0, 0, 0, 0, 0, 0] ∧
      next_lldp_neighbor fromRawId ([0, 16, 0, 0, 0, 0, 0, 0] ++ []) = .error (-EBADMSG)) ∧
    (le64 [2, 0, 0, 0, 0, 0, 0, 0] < 4096 ∧ ([5] : List Nat).length < le64 [2, 0, 0, 0, 0, 0, 0, 0] ∧
      next_lldp_neighbor fromRawId ([2, 0, 0, 0, 0, 0, 0, 0] ++ [5]) = .error (-EBADMSG)) ∧
    (le64 [255, 15, 0, 0, 0, 0, 0, 0] = 4095 ∧ (List.replicate 4095 7 : List Nat).length = 4095 ∧
      next_lldp_neighbor fromRawId ([255, 15, 0, 0, 0, 0, 0, 0] ++ (List.replicate 4095 7 ++ []))
        = .ok (some (List.replicate 4095 7, []))) := by
  refine ⟨⟨by decide, by decide, (next_lldp_neighbor_framing fromRawId).2.1 [1, 2, 3] (by decide) (by decide)⟩,
          ⟨by decide, by decide, (next_lldp_neighbor_framing fromRawId).2.2.1 [0, 16, 0, 0, 0, 0, 0, 0] [] (by decide) (by decide)⟩,
          ⟨by decide, by decide, (next_lldp_neighbor_framing fromRawId).2.2.2.1 [2, 0, 0, 0, 0, 0, 0, 0] [5] (by decide) (by decide) (by decide)⟩,
          ⟨by decide, by rw [List.length_replicate], (next_lldp_neighbor_framing fromRawId).2.2.2.2 [255, 15, 0, 0, 0, 0, 0, 0]
            (List.replicate 4095 7) [] (List.replicate 4095 7) (by decide) (by decide) (by rw [List.length_replicate]) rfl⟩⟩

/-- C9: opening the store of an interface with no store file is the
distinct non-error "no data" outcome: `open_lldp_neighbors` fails with
`-ENOENT` and `dump_lldp_neighbors` turns exactly that into zero records
and success, while a corrupt existing file yields the malformed-data
error `-EBADMSG` instead. -/
theorem lldp_store_missing_vs_malformed :
    (∀ (α : Type) (fromRaw : List Nat → Except Int α) (fs : Int → Option (List Nat))
       (ifindex : Int), fs ifindex = none →
      open_lldp_neighbors fs ifindex = .error (-ENOENT) ∧
      dump_lldp_neighbors fromRaw fs ifindex = .ok 0) ∧
    dump_lldp_neighbors fromRawId fsLldp 5 = .error (-EBADMSG) ∧
    (-ENOENT : Int) ≠ -EBADMSG := by
  refine ⟨?_, ?_, by decide⟩
  · intro α fromRaw fs ifindex h
    constructor
    · simp [open_lldp_neighbors, h]
    · simp [dump_lldp_neighbors, open_lldp_neighbors, h]
  · simp [dump_lldp_neighbors, open_lldp_neighbors, fsLldp, corruptStore,
          lldp_read_all, next_lldp_neighbor, le64, fromRawId]

/-- Witness for C9: interface 3 has no store file in `fsLldp`; the opener
reports `-ENOENT` and the dump reports zero records and success. -/
theorem lldp_store_missing_vs_malformed_witness :
    fsLldp 3 = none ∧
    (open_lldp_neighbors fsLldp 3 = .error (-ENOENT) ∧
      dump_lldp_neighbors fromRawId fsLldp 3 = .ok 0) :=
  ⟨by decide,
   lldp_store_missing_vs_malformed.1 (List Nat) fromRawId fsLldp 3 (by decide)⟩

/-- C8: a malformed store is fatal only for its own interface's file — the
interface loop of `link_lldp_status` processes every interface's file
independently (the output decomposes around any interface), and in the
concrete scenario the store of ifindex 5 (length prefix 10 followed by
only 8 bytes before EOF) is a malformed-stream error whose rows are cut
short, while ifindex 7's store decodes normally. -/
theorem link_lldp_status_failure_isolated :
    (∀ (α : Type) (fromRaw : List Nat → Except Int α) (fs : Int → Option (List Nat))
       (l1 l2 : List Int) (k : Int),
      link_lldp_status fromRaw fs (l1 ++ k :: l2)
        = link_lldp_status fromRaw fs l1 ++ link_lldp_one fromRaw fs k
            ++ link_lldp_status fromRaw fs l2) ∧
    lldp_read_all fromRawId corruptStore = .error (-EBADMSG) ∧
    link_lldp_one fromRawId fsLldp 5 = [] ∧
    link_lldp_status fromRawId fsLldp [5, 7] = [[9, 9]] := by
  refine ⟨?_, ?_, ?_, ?_⟩
  · intro α fromRaw fs l1 l2 k
    induction l1 with
    | nil => simp [link_lldp_status]
    | cons i is ih => simp [link_lldp_status, ih]
  · simp [corruptStore, lldp_read_all, next_lldp_neighbor, le64, fromRawId]
  · simp [link_lldp_one, open_lldp_neighbors, fsLldp, corruptStore,
          lldp_rows, next_lldp_neighbor, le64, fromRawId]
  · simp [link_lldp_status, link_lldp_one, open_lldp_neighbors, fsLldp,
          corruptStore, goodStore, lldp_rows, next_lldp_neighbor, le64, fromRawId]

/-- Characterization of a scan iteration that returns a description:
every check of the loop body must pass — valid message, `RTM_NEWNEIGH`,
family equal, ifindex restriction (when positive), destination equal to
the gateway, readable hardware address, and successful vendor lookup. -/
theorem neigh_step_eq_some_iff (hwdb : Option (List Nat → Option String))
    (ifx : Int) (fam : Nat) (gw : List Nat) (m : NeighMsg) (d : String) :
    neigh_step hwdb ifx fam gw m = some d ↔
      (0 ≤ m.errno ∧ m.msgType = some RTM_NEWNEIGH ∧ m.family = some fam ∧
       (∃ i, m.ifi = some i ∧ (0 < ifx → i = ifx)) ∧
       read_dst fam m = some gw ∧
       ∃ mac, m.lladdr = some mac ∧ ieee_oui hwdb mac = .ok d) := by
  rcases m with ⟨e, mt, mf, mi, md, ml⟩
  unfold neigh_step
  rcases mt with _ | t <;> rcases mf with _ | f <;> rcases mi with _ | i <;>
    rcases ml with _ | mac <;>
    simp only [Option.some.injEq, exists_eq_left', exists_and_left,
      exists_false, and_false, false_and, reduceCtorEq] <;>
    split_ifs <;>
    try (simp_all [not_lt, gt_iff_lt]; try omega)
  · intro hcontra
    split at hcontra <;> simp_all
  · cases hdst : read_dst fam
      { errno := e, msgType := some RTM_NEWNEIGH, family := some fam,
        ifi := some i, dst := md, lladdr := some mac } with
    | none => simp [hdst]
    | some g1 =>
      dsimp only
      simp only [Option.some.injEq]
      split_ifs with hgw
      · cases hoi : ieee_oui hwdb mac <;> simp [hoi, hgw]
      · simp [hgw]

/-- A scan iteration on an entry whose family or destination address does
not match the target yields no result (the loop continues). -/
theorem neigh_step_eq_none_of_no_match (hwdb : Option (List Nat → Option String))
    (ifx : Int) (fam : Nat) (gw : List Nat) (m : NeighMsg)
    (hm : neigh_fam_addr_match fam gw m = false) :
    neigh_step hwdb ifx fam gw m = none := by
  cases hs : neigh_step hwdb ifx fam gw m with
  | none => rfl
  | some d =>
    obtain ⟨-, -, hf, -, hd, -⟩ := (neigh_step_eq_some_iff hwdb ifx fam gw m d).mp hs
    simp [neigh_fam_addr_match, hf, hd] at hm

/-- C7: a neighbor-dump stream with no entry whose family and destination
address both match the target makes `get_gateway_description` return
`-ENODATA`; an entry of a different family is never a match even when its
raw address bytes coincide with the target's. -/
theorem get_gateway_description_no_match (hwdb : Option (List Nat → Option String))
    (ifx : Int) (fam : Nat) (gw : List Nat) (msgs : List NeighMsg)
    (h : ∀ m ∈ msgs, neigh_fam_addr_match fam gw m = false) :
    get_gateway_description hwdb ifx fam gw msgs = .error (-ENODATA) := by
  induction msgs with
  | nil => rfl
  | cons m ms ih =>
    unfold get_gateway_description
    rw [neigh_step_eq_none_of_no_match hwdb ifx fam gw m (h m (by simp))]
    exact ih (fun m' hm' => h m' (by simp [hm']))

/-- Witness for C7: `nmsg6` is an IPv6 neighbor entry whose raw `NDA_DST`
bytes equal the IPv4 gateway `192.0.2.1`; it is not a match and the scan
returns `-ENODATA`. -/
theorem get_gateway_description_no_match_witness :
    (∀ m ∈ [nmsg6], neigh_fam_addr_match AF_INET gw4 m = false) ∧
    nmsg6.dst = some gw4 ∧ nmsg6.family = some AF_INET6 ∧
    get_gateway_description hwdbEx 0 AF_INET gw4 [nmsg6] = .error (-ENODATA) :=
  ⟨by decide, by decide, by decide,
   get_gateway_description_no_match hwdbEx 0 AF_INET gw4 [nmsg6] (by decide)⟩

/-- Counterexample to C4 as stated: `nmsg0` is the first entry of the
stream whose family and destination address match the target, yet the
scan does not stop there — alone it yields `-ENODATA` (its vendor lookup
misses), and with a second matching entry `nmsg1` appended the scan
returns the second entry's vendor description. -/
theorem gateway_scan_first_match_cex :
    neigh_fam_addr_match AF_INET gw4 nmsg0 = true ∧
    get_gateway_description hwdbEx 3 AF_INET gw4 [nmsg0] = .error (-ENODATA) ∧
    get_gateway_description hwdbEx 3 AF_INET gw4 [nmsg0, nmsg1] = .ok "VendorB" := by
  decide

/-- C4 (amended): the scan stops at the first entry that passes every
per-entry check — valid message, type, family, ifindex restriction,
destination equality, readable hardware address and successful vendor
lookup; entries before it (each yielding nothing on its own) and entries
after it are irrelevant. -/
theorem gateway_scan_first_full_match (hwdb : Option (List Nat → Option String))
    (ifx : Int) (fam : Nat) (gw : List Nat) (pre post : List NeighMsg)
    (m : NeighMsg) (d : String)
    (hpre : ∀ m' ∈ pre, neigh_step hwdb ifx fam gw m' = none)
    (hm : neigh_step hwdb ifx fam gw m = some d) :
    get_gateway_description hwdb ifx fam gw (pre ++ m :: post) = .ok d := by
  induction pre with
  | nil =>
    simp only [List.nil_append]
    unfold get_gateway_description
    rw [hm]
  | cons p ps ih =>
    simp only [List.cons_append]
    unfold get_gateway_description
    rw [hpre p (by simp)]
    exact ih (fun m' hm' => hpre m' (by simp [hm']))

/-- Witness for C4 (amended): the scan over `[nmsg0, nmsg1]` skips
`nmsg0` (vendor miss) and returns `nmsg1`'s description. -/
theorem gateway_scan_first_full_match_witness :
    (∀ m' ∈ [nmsg0], neigh_step hwdbEx 3 AF_INET gw4 m' = none) ∧
    neigh_step hwdbEx 3 AF_INET gw4 nmsg1 = some "VendorB" ∧
    get_gateway_description hwdbEx 3 AF_INET gw4 ([nmsg0] ++ nmsg1 :: []) = .ok "VendorB" :=
  ⟨by decide, by decide,
   gateway_scan_first_full_match hwdbEx 3 AF_INET gw4 [nmsg0] [] nmsg1 "VendorB"
     (by decide) (by decide)⟩

/-- Counterexample to C3 as stated: the gateway `192.0.2.1` on ifindex 3
matches neighbor entry `nmsg0` with readable hardware address
`00:11:22:33:44:55`, whose vendor lookup misses; the code then discards
the match — resolution fails with `-ENODATA` and the rendered gateway
cell is the bare address, carrying neither a hardware address nor a
vendor description. -/
theorem gateway_vendor_miss_cex :
    nmsg0.lladdr = some macA ∧
    ieee_oui hwdbEx macA = .error (-ENOENT) ∧
    get_gateway_description hwdbEx 3 AF_INET gw4 [nmsg0] = .error (-ENODATA) ∧
    dump_gateway_cell hwdbEx 3 AF_INET gw4 [nmsg0] "192.0.2.1" = "192.0.2.1" := by
  decide

/-- C3 (amended): when the single candidate entry's vendor lookup fails,
the entry is skipped, resolution fails with `-ENODATA`, and
`dump_gateways` degrades to showing the bare gateway address (the record
never carries the hardware address); the failure is non-fatal. -/
theorem gateway_vendor_miss_skips (hwdb : Option (List Nat → Option String))
    (ifx : Int) (fam : Nat) (gw : List Nat) (m : NeighMsg)
    (mac : List Nat) (e : Int) (gwstr : String)
    (hmac : m.lladdr = some mac)
    (he : ieee_oui hwdb mac = .error e) :
    get_gateway_description hwdb ifx fam gw [m] = .error (-ENODATA) ∧
    dump_gateway_cell hwdb ifx fam gw [m] gwstr = gwstr := by
  have hstep : neigh_step hwdb ifx fam gw m = none := by
    cases hs : neigh_step hwdb ifx fam gw m with
    | none => rfl
    | some d =>
      obtain ⟨-, -, -, -, -, mac', hmac', hok⟩ :=
        (neigh_step_eq_some_iff hwdb ifx fam gw m d).mp hs
      rw [hmac] at hmac'
      cases hmac'
      rw [hok] at he
      exact absurd he (by simp)
  have hget : get_gateway_description hwdb ifx fam gw [m] = .error (-ENODATA) := by
    unfold get_gateway_description
    rw [hstep]
    rfl
  exact ⟨hget, by unfold dump_gateway_cell; rw [hget]⟩

/-- Witness for C3 (amended): applied to `nmsg0` and `hwdbEx`. -/
theorem gateway_vendor_miss_skips_witness :
    nmsg0.lladdr = some macA ∧
    ieee_oui hwdbEx macA = .error (-ENOENT) ∧
    (get_gateway_description hwdbEx 3 AF_INET gw4 [nmsg0] = .error (-ENODATA) ∧
      dump_gateway_cell hwdbEx 3 AF_INET gw4 [nmsg0] "192.0.2.1" = "192.0.2.1") :=
  ⟨by decide, by decide,
   gateway_vendor_miss_skips hwdbEx 3 AF_INET gw4 nmsg0 macA (-ENOENT) "192.0.2.1"
     (by decide) (by decide)⟩

/-- Inversion for a successful decode: all mandatory reads succeeded,
the type tag matched, and the record is the field-write image. -/
theorem decode_link_ok_inv (m : LinkMsg) (pats : Option (List String)) (g info : LinkInfo)
    (h : decode_link m pats g = .ok info) :
    ∃ (ix : Int) (nm : String) (ty : Nat),
      m.msgType = some RTM_NEWLINK ∧ m.ifindex = some ix ∧ m.ifname = some nm ∧
      m.iftype = some ty ∧ info = link_info_of m ix nm ty g := by
  unfold decode_link at h
  rcases hmt : m.msgType with _ | t <;> simp only [hmt] at h
  · exact absurd h (by simp)
  split at h
  · exact absurd h (by simp)
  rename_i hne
  have ht : t = RTM_NEWLINK := not_not.mp hne
  subst ht
  rcases hix : m.ifindex with _ | ix <;> simp only [hix] at h
  · exact absurd h (by simp)
  rcases hnm : m.ifname with _ | nm <;> simp only [hnm] at h
  · exact absurd h (by simp)
  split at h
  · exact absurd h (by simp)
  rcases hty : m.iftype with _ | ty <;> simp only [hty] at h
  · exact absurd h (by simp)
  simp only [DecodeResult.ok.injEq] at h
  exact ⟨ix, nm, ty, rfl, rfl, rfl, rfl, h.symm⟩

/-- C5: `decode_link` returns the not-applicable outcome (not an error)
when the type tag is not `RTM_NEWLINK`; a mandatory field (index, name,
interface type) that cannot be read aborts decoding of that one message
with an error; unreadable optional fields (hardware address, MTU, queue
counts) are merely omitted and decoding still succeeds. -/
theorem decode_link_contract (m : LinkMsg) (pats : Option (List String)) (g : LinkInfo) :
    (∀ t, m.msgType = some t → t ≠ RTM_NEWLINK → decode_link m pats g = .skip) ∧
    (m.msgType = some RTM_NEWLINK → m.ifindex = none → decode_link m pats g = .err) ∧
    (∀ ix : Int, m.msgType = some RTM_NEWLINK → m.ifindex = some ix → m.ifname = none →
      decode_link m pats g = .err) ∧
    (∀ (ix : Int) (nm : String), m.msgType = some RTM_NEWLINK → m.ifindex = some ix →
      m.ifname = some nm → m.iftype = none → decode_link m none g = .err) ∧
    (∀ (ix : Int) (nm : String) (ty : Nat), m.msgType = some RTM_NEWLINK →
      m.ifindex = some ix → m.ifname = some nm → m.iftype = some ty →
      ∃ info, decode_link m none g = .ok info) := by
  refine ⟨?_, ?_, ?_, ?_, ?_⟩
  · intro t ht hne
    simp [decode_link, ht, hne]
  · intro h1 h2
    simp [decode_link, h1, h2]
  · intro ix h1 h2 h3
    simp [decode_link, h1, h2, h3]
  · intro ix nm h1 h2 h3 h4
    simp [decode_link, h1, h2, h3, h4]
  · intro ix nm ty h1 h2 h3 h4
    exact ⟨link_info_of m ix nm ty g, by simp [decode_link, h1, h2, h3, h4]⟩

/-- Witness for C5: a non-link message is skipped; messages lacking
index, name or interface type are hard failures; a message with all
mandatory fields but no readable optional attribute still decodes. -/
theorem decode_link_contract_witness :
    decode_link mTypeOther none gDefault = .skip ∧
    decode_link mNoIndex none gDefault = .err ∧
    decode_link mNoName none gDefault = .err ∧
    decode_link mNoType none gDefault = .err ∧
    (∃ info, decode_link linkMsgZero none gDefault = .ok info) :=
  ⟨(decode_link_contract mTypeOther none gDefault).1 20 rfl (by decide),
   (decode_link_contract mNoIndex none gDefault).2.1 rfl rfl,
   (decode_link_contract mNoName none gDefault).2.2.1 1 rfl rfl rfl,
   (decode_link_contract mNoType none gDefault).2.2.2.1 1 "x" rfl rfl rfl rfl,
   (decode_link_contract linkMsgZero none gDefault).2.2.2.2 2 "eth0" 1 rfl rfl rfl rfl⟩

/-- C6: in a decoded record, the hardware address is present iff the
attribute was readable and not all-zero; the MTU is present iff readable
and positive, and the min/max MTU bounds are read (i.e. can differ from
the slot's prior content) only in that case; each queue count is present
iff readable and positive. -/
theorem decode_link_optional_presence (m : LinkMsg) (pats : Option (List String))
    (g info : LinkInfo) (h : decode_link m pats g = .ok info) :
    (info.has_mac_address = true ↔ ∃ a, m.addr = some a ∧ a ≠ ETHER_ADDR_NULL) ∧
    (info.has_mtu = true ↔ ∃ v, m.mtu = some v ∧ 0 < v) ∧
    (info.has_mtu = false → info.min_mtu = g.min_mtu ∧ info.max_mtu = g.max_mtu) ∧
    (info.has_rx_queues = true ↔ ∃ v, m.rxQueues = some v ∧ 0 < v) ∧
    (info.has_tx_queues = true ↔ ∃ v, m.txQueues = some v ∧ 0 < v) := by
  obtain ⟨ix, nm, ty, -, -, -, -, rfl⟩ := decode_link_ok_inv m pats g info h
  refine ⟨?_, ?_, ?_, ?_, ?_⟩
  · rcases ha : m.addr with _ | a <;> simp [link_info_of, ha]
  · rcases hv : m.mtu with _ | v <;> simp [link_info_of, hv]
  · intro hf
    simp only [link_info_of] at hf ⊢
    rw [hf]
    simp
  · rcases hv : m.rxQueues with _ | v <;> simp [link_info_of, hv]
  · rcases hv : m.txQueues with _ | v <;> simp [link_info_of, hv]

/-- Witness for C6: the all-zero-MAC message `linkMsgZero` decodes to
`recZero`, whose hardware address is reported absent. -/
theorem decode_link_optional_presence_witness :
    decode_link linkMsgZero none gDefault = .ok recZero ∧
    recZero.has_mac_address = false ∧
    ((recZero.has_mac_address = true ↔ ∃ a, linkMsgZero.addr = some a ∧ a ≠ ETHER_ADDR_NULL) ∧
     (recZero.has_mtu = true ↔ ∃ v, linkMsgZero.mtu = some v ∧ 0 < v) ∧
     (recZero.has_mtu = false → recZero.min_mtu = gDefault.min_mtu ∧ recZero.max_mtu = gDefault.max_mtu) ∧
     (recZero.has_rx_queues = true ↔ ∃ v, linkMsgZero.rxQueues = some v ∧ 0 < v) ∧
     (recZero.has_tx_queues = true ↔ ∃ v, linkMsgZero.txQueues = some v ∧ 0 < v)) :=
  ⟨by decide, by decide,
   decode_link_optional_presence linkMsgZero none gDefault recZero (by decide)⟩

/-- C10: an address-label dump entry whose label attribute is absent
(`-ENODATA`) is still retained and emitted, and the label it carries is
exactly the (arbitrary) prior content of the uninitialized stack
variable — not a defined default. -/
theorem dump_address_labels_uninit_label
    (uninit : Nat → Nat) (u : Nat) (m : AddrLabelMsg) (a : List Nat) (pl : Nat)
    (herr : 0 ≤ m.errno) (hl : m.labelRead = .nodata)
    (ha : m.address = some a) (hp : m.prefixlen = some pl) :
    addrlabel_entry u m = some ⟨u, a, pl⟩ ∧
    dump_address_labels uninit [m] = [⟨uninit 0, a, pl⟩] := by
  have h1 : ∀ w, addrlabel_entry w m = some ⟨w, a, pl⟩ := by
    intro w
    unfold addrlabel_entry addrlabel_emit
    rw [if_neg (by omega), hl, ha, hp]
  refine ⟨h1 u, ?_⟩
  unfold dump_address_labels dump_address_labels_go
  rw [h1]
  rfl

/-- Witness for C10: an entry with absent label attribute emitted with
two different garbage values carries exactly those values. -/
theorem dump_address_labels_uninit_label_witness :
    (0 ≤ almsg.errno ∧ almsg.labelRead = .nodata ∧
      almsg.address = some [32, 1, 13, 184, 0, 0, 0, 0, 0, 0, 0, 0, 0, 0, 0, 0] ∧
      almsg.prefixlen = some 32) ∧
    (addrlabel_entry 3735928559 almsg
        = some ⟨3735928559, [32, 1, 13, 184, 0, 0, 0, 0, 0, 0, 0, 0, 0, 0, 0, 0], 32⟩ ∧
      dump_address_labels (fun _ => 3735928559) [almsg]
        = [⟨3735928559, [32, 1, 13, 184, 0, 0, 0, 0, 0, 0, 0, 0, 0, 0, 0, 0], 32⟩]) :=
  ⟨⟨by decide, by decide, by decide, by decide⟩,
   dump_address_labels_uninit_label (fun _ => 3735928559) 3735928559 almsg
     [32, 1, 13, 184, 0, 0, 0, 0, 0, 0, 0, 0, 0, 0, 0, 0] 32
     (by decide) (by decide) (by decide) (by decide)⟩

/-- `strscpy` into the `IFNAMSIZ+1` buffer is the identity on names that
fit (kernel interface names always do). -/
theorem strscpy16_eq (s : String) (h : s.length ≤ 16) : strscpy16 s = s := by
  rcases s with ⟨d⟩
  unfold strscpy16
  exact congrArg String.mk (List.take_of_length_le h)

/-- A message the patternless decode skips (type-tag mismatch) is skipped
under any pattern list as well. -/
theorem decode_link_skip_none (m : LinkMsg) (pats : List String) (g : LinkInfo)
    (h : decode_link m none g = .skip) : decode_link m (some pats) g = .skip := by
  unfold decode_link at h ⊢
  rcases hmt : m.msgType with _ | t <;> simp only [hmt] at h ⊢
  · exact absurd h (by simp)
  split at h
  · rename_i hne
    rw [if_pos hne]
  · rename_i hne
    rw [if_neg hne]
    exfalso
    rcases hix : m.ifindex with _ | ix <;> simp only [hix] at h
    · simp at h
    rcases hnm : m.ifname with _ | nm <;> simp only [hnm] at h
    · simp at h
    rw [if_neg (by simp)] at h
    rcases hty : m.iftype with _ | ty <;> simp only [hty] at h
    · simp at h
    · simp at h

/-- A message the patternless decode accepts is, under a pattern list,
kept exactly when a pattern matches the record's decimal index or its
name, and dropped (skipped) otherwise. -/
theorem decode_link_ok_filter (m : LinkMsg) (pats : List String) (g i : LinkInfo)
    (hlen : ∀ s, m.ifname = some s → s.length ≤ 16)
    (h : decode_link m none g = .ok i) :
    decode_link m (some pats) g = if linkMatch pats i then .ok i else .skip := by
  obtain ⟨ix, nm, ty, hmt, hix, hnm, hty, rfl⟩ := decode_link_ok_inv m none g i h
  have hname : (link_info_of m ix nm ty g).name = nm := strscpy16_eq nm (hlen nm hnm)
  have hifx : (link_info_of m ix nm ty g).ifindex = ix := rfl
  unfold decode_link
  simp only [hmt, hix, hnm, hty]
  rw [if_neg (by simp)]
  simp only [linkMatch, hname, hifx]
  by_cases hA : strv_fnmatch pats (toString ix) = true <;>
    by_cases hB : strv_fnmatch pats nm = true <;>
    simp [hA, hB]

/-- The collection loop under a pattern list produces exactly the
pattern-matching subsequence of the patternless collection. -/
theorem decode_loop_patterns (g : LinkInfo) (pats : List String) (msgs : List LinkMsg)
    (hlen : ∀ m ∈ msgs, ∀ s, m.ifname = some s → s.length ≤ 16)
    (l : List LinkInfo) (h : decode_loop g none msgs = some l) :
    decode_loop g (some pats) msgs = some (l.filter (fun i => linkMatch pats i)) := by
  induction msgs generalizing l with
  | nil =>
    simp only [decode_loop, Option.some.injEq] at h
    subst h
    rfl
  | cons m ms ih =>
    unfold decode_loop at h ⊢
    cases hd : decode_link m none g with
    | err => rw [hd] at h; exact absurd h (by simp)
    | skip =>
      rw [hd] at h
      rw [decode_link_skip_none m pats g hd]
      exact ih (fun m' hm' s hs => hlen m' (by simp [hm']) s hs) l h
    | ok i =>
      rw [hd] at h
      cases hl' : decode_loop g none ms with
      | none => rw [hl'] at h; exact absurd h (by simp)
      | some l' =>
        rw [hl'] at h
        simp only [Option.map_some', Option.some.injEq] at h
        subst h
        rw [decode_link_ok_filter m pats g i (fun s hs => hlen m (by simp) s hs) hd]
        rw [ih (fun m' hm' s hs => hlen m' (by simp [hm']) s hs) l' hl']
        by_cases hm : linkMatch pats i = true
        · rw [if_pos hm]
          simp [List.filter_cons, hm]
        · rw [if_neg hm]
          simp only [Bool.not_eq_true] at hm
          simp [List.filter_cons, hm]

/-- C1 (amended): when the patternless enumeration succeeds with result
`l₀`, `l₀` is sorted ascending by interface index, and enumeration under
any pattern list `pats` succeeds with a result that is sorted ascending by
index and is a permutation of exactly those records of `l₀` whose decimal
index or name matches some pattern — in particular the EMPTY (non-null)
pattern list retains nothing, while the absent (`none`) pattern list
retains everything.  (Count = length of the returned list.)  The
name-length hypothesis reflects the kernel bound `IFNAMSIZ` on interface
names. -/
theorem acquire_link_info_filter_sort (g : LinkInfo) (msgs : List LinkMsg)
    (pats : List String) (l₀ : List LinkInfo)
    (hlen : ∀ m ∈ msgs, ∀ s, m.ifname = some s → s.length ≤ 16)
    (h0 : acquire_link_info g none msgs = some l₀) :
    List.Sorted link_info_le l₀ ∧
    ∃ l, acquire_link_info g (some pats) msgs = some l ∧
      List.Sorted link_info_le l ∧
      l.Perm (l₀.filter (fun i => linkMatch pats i)) ∧
      (pats = [] → l = []) := by
  unfold acquire_link_info at h0
  cases hd : decode_loop g none msgs with
  | none => rw [hd] at h0; exact absurd h0 (by simp)
  | some d =>
    rw [hd] at h0
    simp only [Option.map_some', Option.some.injEq] at h0
    subst h0
    refine ⟨List.sorted_insertionSort link_info_le d, ?_⟩
    have hp := decode_loop_patterns g pats msgs hlen d hd
    refine ⟨List.insertionSort link_info_le (d.filter (fun i => linkMatch pats i)),
      ?_, List.sorted_insertionSort _ _, ?_, ?_⟩
    · unfold acquire_link_info
      rw [hp]
      rfl
    · exact (List.perm_insertionSort link_info_le _).trans
        (List.Perm.filter _ (List.perm_insertionSort link_info_le d).symm)
    · intro hpe
      subst hpe
      have hfe : d.filter (fun i => linkMatch [] i) = [] := by
        simp [linkMatch, strv_fnmatch]
      rw [hfe]
      rfl

/-- Witness for C1 (amended): one well-formed message, pattern `eth*`. -/
theorem acquire_link_info_filter_sort_witness :
    (∀ m ∈ [linkMsgEx], ∀ s, m.ifname = some s → s.length ≤ 16) ∧
    acquire_link_info gDefault none [linkMsgEx] = some [recEx] ∧
    (List.Sorted link_info_le [recEx] ∧
      ∃ l, acquire_link_info gDefault (some ["eth*"]) [linkMsgEx] = some l ∧
        List.Sorted link_info_le l ∧
        l.Perm ([recEx].filter (fun i => linkMatch ["eth*"] i)) ∧
        (["eth*"] = ([] : List String) → l = [])) :=
  ⟨by
      intro m hm s hs
      rw [List.mem_singleton] at hm
      subst hm
      simp only [linkMsgEx, Option.some.injEq] at hs
      subst hs
      decide,
   by decide,
   acquire_link_info_filter_sort gDefault [linkMsgEx] ["eth*"] [recEx]
     (by
       intro m hm s hs
       rw [List.mem_singleton] at hm
       subst hm
       simp only [linkMsgEx, Option.some.injEq] at hs
       subst hs
       decide)
     (by decide)⟩

/-- Counterexample to C1 as stated: with the EMPTY (non-null) pattern
list, `acquire_link_info` retains nothing — not every decoded record —
even though the patternless run retains the decoded record. -/
theorem acquire_link_info_empty_patterns_cex :
    acquire_link_info gDefault (some []) [linkMsgEx] = some [] ∧
    acquire_link_info gDefault none [linkMsgEx] = some [recEx] ∧
    ([recEx] : List LinkInfo) ≠ [] := by
  refine ⟨by decide, by decide, by decide⟩
